import Mathlib

/-!
Shallow embedding of the normalization core of the DistributedColonyRust
telemetry ingestion scripts (`src/bi/ingest_bi.py` and
`src/analysis/stats_shots_to_parquet.py`), together with theorems settling
the frozen claims about it.

Modelling conventions:
* Parsed JSON documents are modelled by the inductive `JVal`.  JSON numbers
  (Python `int` and `float` after `json.loads`) are modelled as exact
  rationals `ℚ`; the scripts only move these values around, and no claim
  depends on binary floating-point rounding.
* A Python `dict` produced by `json.loads` has distinct keys, preserved in
  insertion order; it is modelled as an association list
  `List (String × JVal)` and looked up with `List.lookup` (first match,
  which coincides with the unique match on duplicate-free inputs).
* `dict.get(k)` returning Python `None` (for a missing key or a JSON null)
  is modelled by the value `JVal.null`.
* Python `int(v)` / `float(k)` coercions are modelled by `pyInt` /
  `pyFloatOfString`; inputs on which Python would raise an exception map to
  `none` (the callers catch `TypeError`/`ValueError` and skip the entry).
  `pyFloatOfString` covers the sign/digits/decimal-point/exponent forms;
  surrounding whitespace, digit-group underscores and `inf`/`nan` literals
  are not modelled (no claim involves them).
-/

unseal Rat.add Rat.mul Rat.inv Rat.sub Rat.ofScientific List.merge List.mergeSort

inductive JVal where
  | null : JVal
  | bool : Bool → JVal
  | num : ℚ → JVal
  | str : String → JVal
  | arr : List JVal → JVal
  | obj : List (String × JVal) → JVal

/-- Value of a nonempty digit string, most significant digit first. -/
def digitsVal (cs : List Char) : ℕ :=
  cs.foldl (fun a c => 10 * a + (c.toNat - 48)) 0

/-- Split a character list on a separator character. -/
def splitOnCharL (sep : Char) : List Char → List (List Char)
  | [] => [[]]
  | c :: cs =>
    let r := splitOnCharL sep cs
    if c = sep then [] :: r
    else
      match r with
      | h :: t => (c :: h) :: t
      | [] => [[c]]

/-- Strip one optional leading sign, returning (isNegative, rest). -/
def parseSignL : List Char → Bool × List Char
  | '-' :: cs => (true, cs)
  | '+' :: cs => (false, cs)
  | cs => (false, cs)

/-- Nonempty all-digit run parsed to a natural number. -/
def parseDigitsL (cs : List Char) : Option ℕ :=
  if cs.isEmpty then none
  else if cs.all Char.isDigit then some (digitsVal cs) else none

/-- Optionally signed nonempty digit run parsed to an integer. -/
def parseSignedIntL (cs : List Char) : Option ℤ :=
  let (neg, rest) := parseSignL cs
  match parseDigitsL rest with
  | some n => some (if neg then -(n : ℤ) else (n : ℤ))
  | none => none

/-- Mantissa of a Python float literal: optional sign, then digits with an
optional decimal point; at least one digit overall (`"1."`, `".5"` and
`"12"` are accepted, `"."` and `""` are not). -/
def parseMantissaL (cs : List Char) : Option ℚ :=
  let (neg, rest) := parseSignL cs
  let core : Option ℚ :=
    match splitOnCharL '.' rest with
    | [i] =>
      match parseDigitsL i with
      | some n => some (n : ℚ)
      | none => none
    | [i, f] =>
      if i.all Char.isDigit ∧ f.all Char.isDigit ∧ ¬(i.isEmpty ∧ f.isEmpty) then
        some ((digitsVal i : ℚ) + (digitsVal f : ℚ) / (10 : ℚ) ^ f.length)
      else none
    | _ => none
  match core with
  | some q => some (if neg then -q else q)
  | none => none

/-- Model of Python `float(s)` on a string: `[sign] digits [. digits] [e [sign] digits]`. -/
def pyFloatOfString (s : String) : Option ℚ :=
  let cs := s.toList.map fun c => if c = 'E' then 'e' else c
  match splitOnCharL 'e' cs with
  | [m] => parseMantissaL m
  | [m, ex] =>
    match parseMantissaL m, parseSignedIntL ex with
    | some q, some e => some (q * (10 : ℚ) ^ e)
    | _, _ => none
  | _ => none

/-- Model of Python `int(s)` on a string: optional sign then digits only. -/
def pyIntOfString (s : String) : Option ℤ := parseSignedIntL s.toList

/-- Truncation of a rational toward zero, matching Python `int()` on a float. -/
def truncQ (q : ℚ) : ℤ :=
  if 0 ≤ q.num then (q.num.natAbs / q.den : ℕ) else -((q.num.natAbs / q.den : ℕ) : ℤ)

/-- Model of Python `int(v)` on a parsed JSON value.  `none` stands for the
`TypeError`/`ValueError` that the callers catch and turn into a skip. -/
def pyInt : JVal → Option ℤ
  | JVal.null => none
  | JVal.bool b => some (cond b 1 0)
  | JVal.num q => some (truncQ q)
  | JVal.str s => pyIntOfString s
  | JVal.arr _ => none
  | JVal.obj _ => none

/-- Model of `fields.get(k)`: Python returns `None` both for a missing key
and for a JSON null value, modelled uniformly as `JVal.null`. -/
def pyGet (fields : List (String × JVal)) (k : String) : JVal :=
  (List.lookup k fields).getD JVal.null

/-- Model of `fields.get(k) or {}` followed by dict use: a JSON-object value
yields its fields, every falsy value yields the empty dict.  (A truthy
non-dict value makes the Python crash on the subsequent attribute access;
such inputs are outside the modelled domain.) -/
def pyGetDict (fields : List (String × JVal)) (k : String) : List (String × JVal) :=
  match pyGet fields k with
  | JVal.obj fs => fs
  | _ => []

/-- Histogram input object as read by the summarizers: the four fields the
code accesses.  `average` is the data model's optional precomputed numeric
average (§3 of the spec); a JSON number (or numeric string / bool, which
Python `float()` also accepts) decodes to its rational value. `was_cut` and
`unique_values_count` are passed through verbatim, so they stay raw
(`none` = key absent). -/
structure Hist where
  distribution : Option (List (String × JVal))
  average : Option ℚ
  was_cut : Option JVal
  unique_values_count : Option JVal

/-- Decode of the `average` field: models `float(hist_avg)` applied to the
values the data model allows there.  (A non-numeric string or a container
would make Python raise inside `float()`; such inputs are outside the
modelled domain and map to `none`.) -/
def decodeAverage : JVal → Option ℚ
  | JVal.null => none
  | JVal.num q => some q
  | JVal.bool b => some (cond b 1 0)
  | JVal.str s => pyFloatOfString s
  | JVal.arr _ => none
  | JVal.obj _ => none

/-- Decode a raw JSON value into the `Hist` view used by the summarizers,
mirroring the `hist.get(...)` accesses at the top of each summarizer. -/
def decodeHist : JVal → Hist
  | JVal.obj fs =>
    { distribution :=
        match pyGet fs "distribution" with
        | JVal.obj ds => some ds
        | _ => none
      average := decodeAverage (pyGet fs "average")
      was_cut := List.lookup "was_cut" fs
      unique_values_count := List.lookup "unique_values_count" fs }
  | _ => { distribution := none, average := none, was_cut := none, unique_values_count := none }

/-- Valid (value, count) pairs of a numeric distribution, in input order:
`float(k)` must parse, `int(v)` must parse, and the count must be positive
(lines 163-172 of `ingest_bi.py`, identical in the analysis script). -/
def validItems (dist : List (String × JVal)) : List (ℚ × ℤ) :=
  dist.filterMap fun kv =>
    match pyFloatOfString kv.1, pyInt kv.2 with
    | some value, some count => if count ≤ 0 then none else some (value, count)
    | _, _ => none

/-- Comparison used for `items.sort(key=lambda x: x[0])`: ascending by value. -/
def itemLe (a b : ℚ × ℤ) : Bool := decide (a.1 ≤ b.1)

/-- Model of `items.sort(key=lambda x: x[0])` (stable ascending sort by value). -/
def sortItems (items : List (ℚ × ℤ)) : List (ℚ × ℤ) :=
  items.mergeSort itemLe

/-- Loop body of the percentile walk: accumulate a running count and return
the value of the first entry whose running count reaches the threshold. -/
def percScan : List (ℚ × ℤ) → ℚ → ℤ → Option ℚ
  | [], _, _ => none
  | (v, c) :: rest, t, r =>
    if t ≤ ((r + c : ℤ) : ℚ) then some v else percScan rest t (r + c)

/-- Value of `items[-1][0]` (only evaluated on nonempty lists in the code). -/
def lastVal (items : List (ℚ × ℤ)) : ℚ :=
  ((items.getLast?).map Prod.fst).getD 0

/-- Model of the inner `percentile(p)` function of `_summarize_numeric_hist`. -/
def percentileFn (items : List (ℚ × ℤ)) (total : ℤ) (p : ℚ) : Option ℚ :=
  if total ≤ 0 then none
  else some ((percScan items ((total : ℚ) * p) 0).getD (lastVal items))

/-- Output record of `_summarize_numeric_hist` (the returned dict, with the
`prefix`-qualified column names abstracted into fields; `none` = `None`). -/
structure NumericSummary where
  mean : Option ℚ
  avg : Option ℚ
  p50 : Option ℚ
  p90 : Option ℚ
  p99 : Option ℚ
  was_cut : JVal
  unique_values_count : JVal

/-- Model of `_summarize_numeric_hist` (identical in both scripts).  The
`useHistAverage` flag is the `use_hist_average` parameter. -/
def summarize_numeric_hist (h : Hist) (useHistAverage : Bool) : NumericSummary :=
  let dist := h.distribution.getD []
  let items0 := validItems dist
  let wc := h.was_cut.getD (JVal.bool false)
  let uc := h.unique_values_count.getD JVal.null
  if items0 = [] then
    { mean := none, avg := none, p50 := none, p90 := none, p99 := none
      was_cut := wc, unique_values_count := uc }
  else
    let items := sortItems items0
    let total : ℤ := (items.map Prod.snd).sum
    let totalWeighted : ℚ := (items.map fun x => x.1 * (x.2 : ℚ)).sum
    let computed : Option ℚ :=
      if 0 < total then some (totalWeighted / (total : ℚ)) else none
    let mean : Option ℚ :=
      match useHistAverage, h.average with
      | true, some a => some a
      | _, _ => computed
    { mean := mean, avg := mean
      p50 := percentileFn items total 0.5
      p90 := percentileFn items total 0.9
      p99 := percentileFn items total 0.99
      was_cut := wc, unique_values_count := uc }

/-- Output record of `_summarize_boolean_hist` (returned dict with the
`prefix`-qualified column names abstracted into fields). -/
structure BooleanSummary where
  true_count : ℤ
  false_count : ℤ
  true_fraction : Option ℚ
  average : Option ℚ
  was_cut : JVal
  unique_values_count : JVal

/-- Model of `int(dist.get(key, 0))` with the surrounding
`except (TypeError, ValueError): ... = 0`: a missing key gives `int(0) = 0`,
a present but uncoercible value gives 0 via the handler. -/
def boolCount (dist : List (String × JVal)) (key : String) : ℤ :=
  match List.lookup key dist with
  | none => 0
  | some v => (pyInt v).getD 0

/-- Model of `_summarize_boolean_hist` (identical in both scripts). -/
def summarize_boolean_hist (h : Hist) (trueKey falseKey : String) : BooleanSummary :=
  let dist := h.distribution.getD []
  let true_count := boolCount dist trueKey
  let false_count := boolCount dist falseKey
  let total := true_count + false_count
  let frac_true : Option ℚ :=
    if 0 < total then some ((true_count : ℚ) / (total : ℚ)) else none
  let avg : Option ℚ :=
    match h.average with
    | some a => some a
    | none => frac_true
  { true_count := true_count, false_count := false_count
    true_fraction := frac_true, average := avg
    was_cut := h.was_cut.getD (JVal.bool false)
    unique_values_count := h.unique_values_count.getD JVal.null }

/-- Valid (color, count) pairs of the color distribution, in input order:
`int(count)` must parse and be positive (lines 288-294 of `ingest_bi.py`). -/
def validColorEntries (dist : List (String × JVal)) : List (String × ℤ) :=
  dist.filterMap fun kv =>
    match pyInt kv.2 with
    | some c => if 0 < c then some (kv.1, c) else none
    | none => none

/-- Comparison used for `color_counts.sort(key=lambda x: x[1], reverse=True)`:
descending by count, stable (ties keep input order), like Python's sort. -/
def colorLe (a b : String × ℤ) : Bool := decide (b.2 ≤ a.2)

/-- Model of the descending stable sort of the color entries. -/
def rankedColors (dist : List (String × JVal)) : List (String × ℤ) :=
  (validColorEntries dist).mergeSort colorLe

/-- Output record of `_summarize_original_color_hist`.  `tops` has one slot
per rank 1..topN: `some (color, count)` for an occupied rank, `none` for a
null-padded one; `dominant` is the rank-1 alias. -/
structure ColorSummary where
  was_cut : JVal
  unique_values_count : JVal
  tops : List (Option (String × ℤ))
  dominant : Option (String × ℤ)

/-- Model of `_summarize_original_color_hist` (only in `ingest_bi.py`). -/
def summarize_original_color_hist (h : Hist) (topN : ℕ) : ColorSummary :=
  let dist := h.distribution.getD []
  let top := (rankedColors dist).take topN
  { was_cut := h.was_cut.getD (JVal.bool false)
    unique_values_count := h.unique_values_count.getD JVal.null
    tops := top.map some ++ List.replicate (topN - top.length) none
    dominant := top.head? }

/-- Separator-joined concatenation of a list of strings. -/
def joinSep (sep : String) : List String → String
  | [] => ""
  | [s] => s
  | s :: rest => s ++ sep ++ joinSep sep rest

/-- JSON string escaping for `json.dumps` (double quote and backslash; other
control-character escapes are not modelled, no claim exercises them). -/
def jsonEscape (s : String) : String :=
  s.foldl (fun acc c =>
    if c = '"' then acc ++ "\\\"" else if c = '\\' then acc ++ "\\\\" else acc.push c) ""

/-- Rendering of a JSON number.  Integers render like Python ints; for
non-integral values Python reprs the shortest round-tripping float literal,
which is approximated here by `num/den` (no claim inspects such text). -/
def numRepr (q : ℚ) : String :=
  if q.den = 1 then toString q.num else toString q.num ++ "/" ++ toString q.den

/-- Model of `json.dumps` with its default separators (`", "` and `": "`).
`ensure_ascii` escaping of non-ASCII text is not modelled (no claim
exercises it). -/
def jsonDumps : JVal → String
  | JVal.null => "null"
  | JVal.bool b => cond b "true" "false"
  | JVal.num q => numRepr q
  | JVal.str s => "\"" ++ jsonEscape s ++ "\""
  | JVal.arr xs => "[" ++ joinSep ", " (xs.attach.map fun x => jsonDumps x.1) ++ "]"
  | JVal.obj fs =>
    "\x7b" ++
      joinSep ", " (fs.attach.map fun kv => "\"" ++ jsonEscape kv.1.1 ++ "\": " ++ jsonDumps kv.1.2)
      ++ "\x7d"
decreasing_by
  · have := List.sizeOf_lt_of_mem x.2
    simp_all
    omega
  · rcases kv with ⟨⟨k, v⟩, hm⟩
    have := List.sizeOf_lt_of_mem hm
    simp_all
    omega

/-- Model of Python `repr` on a parsed JSON value, used (via `str`) for the
`event_data_value` of non-dict payloads.  Python reprs strings with single
quotes; double quotes are used here, and floats as in `numRepr` — no claim
inspects this text concretely. -/
def pyRepr : JVal → String
  | JVal.null => "None"
  | JVal.bool b => cond b "True" "False"
  | JVal.num q => numRepr q
  | JVal.str s => "\"" ++ s ++ "\""
  | JVal.arr xs => "[" ++ joinSep ", " (xs.attach.map fun x => pyRepr x.1) ++ "]"
  | JVal.obj fs =>
    "\x7b" ++
      joinSep ", " (fs.attach.map fun kv => "\"" ++ kv.1.1 ++ "\": " ++ pyRepr kv.1.2)
      ++ "\x7d"
decreasing_by
  · have := List.sizeOf_lt_of_mem x.2
    simp_all
    omega
  · rcases kv with ⟨⟨k, v⟩, hm⟩
    have := List.sizeOf_lt_of_mem hm
    simp_all
    omega

/-- Model of Python `str(v)`: identity on strings, `repr` otherwise. -/
def pyStr : JVal → String
  | JVal.str s => s
  | v => pyRepr v

/-- Flat output row: a Python dict with string keys in insertion order.
All keys assigned by the row builders are distinct, so `List.lookup`
agrees with the dict lookup. -/
abbrev Row := List (String × JVal)

/-- Encoding of an optional rational statistic into a row cell
(`float(x) if x is not None else None`). -/
def jOfOptQ : Option ℚ → JVal
  | some q => JVal.num q
  | none => JVal.null

/-- Row fragment produced by one `_summarize_numeric_hist` call, with its
`prefix`-qualified keys in the order the returned dict is built. -/
def numericHistRowFrag (h : Hist) (pfx : String) (useAvg : Bool) : Row :=
  let s := summarize_numeric_hist h useAvg
  [(pfx ++ "_mean", jOfOptQ s.mean),
   (pfx ++ "_avg", jOfOptQ s.avg),
   (pfx ++ "_p50", jOfOptQ s.p50),
   (pfx ++ "_p90", jOfOptQ s.p90),
   (pfx ++ "_p99", jOfOptQ s.p99),
   (pfx ++ "_was_cut", s.was_cut),
   (pfx ++ "_unique_values_count", s.unique_values_count)]

/-- Row fragment produced by one `_summarize_boolean_hist` call. -/
def booleanHistRowFrag (h : Hist) (pfx : String) : Row :=
  let s := summarize_boolean_hist h "1" "0"
  [(pfx ++ "_true_count", JVal.num (s.true_count : ℚ)),
   (pfx ++ "_false_count", JVal.num (s.false_count : ℚ)),
   (pfx ++ "_true_fraction", jOfOptQ s.true_fraction),
   (pfx ++ "_average", jOfOptQ s.average),
   (pfx ++ "_was_cut", s.was_cut),
   (pfx ++ "_unique_values_count", s.unique_values_count)]

/-- Cell pair for one color rank slot. -/
def colorSlotCells (i : ℕ) (slot : Option (String × ℤ)) : Row :=
  [("original_color_top" ++ toString (i + 1),
    match slot with | some p => JVal.str p.1 | none => JVal.null),
   ("original_color_top" ++ toString (i + 1) ++ "_count",
    match slot with | some p => JVal.num (p.2 : ℚ) | none => JVal.null)]

/-- Row fragment produced by `_summarize_original_color_hist`, keys in the
order the returned dict is built (metadata, rank pairs 1..topN, dominant). -/
def colorHistRowFrag (h : Hist) (topN : ℕ) : Row :=
  let s := summarize_original_color_hist h topN
  [("original_color_was_cut", s.was_cut),
   ("original_color_unique_values_count", s.unique_values_count)]
  ++ ((List.range topN).map fun i => colorSlotCells i ((s.tops.getD i none))).flatten
  ++ [("original_color_dominant",
        match s.dominant with | some p => JVal.str p.1 | none => JVal.null),
      ("original_color_dominant_count",
        match s.dominant with | some p => JVal.num (p.2 : ℚ) | none => JVal.null)]

/-- Identity and metadata cells shared by both `snapshot_to_row` variants. -/
def snapshotIdMeta (snap : List (String × JVal)) : Row :=
  let meta := pyGetDict snap "meta"
  [("colony_id", pyGet snap "colony_instance_id"),
   ("tick", pyGet snap "tick"),
   ("creatures_count", pyGet snap "creatures_count"),
   ("created_at_utc", pyGet meta "created_at_utc"),
   ("colony_width", pyGet meta "colony_width"),
   ("colony_height", pyGet meta "colony_height")]

/-- Histogram sub-object of a snapshot, with the two `or {}` fallbacks. -/
def snapshotHist (snap : List (String × JVal)) (name : String) : Hist :=
  decodeHist (pyGet (pyGetDict snap "histograms") name)

/-- Model of `snapshot_to_row` from `src/bi/ingest_bi.py` (with the
original-color fragment). -/
def snapshot_to_row_ingest (snap : List (String × JVal)) : Row :=
  snapshotIdMeta snap
  ++ numericHistRowFrag (snapshotHist snap "creature_size") "creature_size" true
  ++ numericHistRowFrag (snapshotHist snap "health") "health" true
  ++ numericHistRowFrag (snapshotHist snap "food") "food" true
  ++ numericHistRowFrag (snapshotHist snap "age") "age" true
  ++ booleanHistRowFrag (snapshotHist snap "can_kill") "can_kill"
  ++ booleanHistRowFrag (snapshotHist snap "can_move") "can_move"
  ++ colorHistRowFrag (snapshotHist snap "original_color") 5

/-- Model of `snapshot_to_row` from `src/analysis/stats_shots_to_parquet.py`
(no original-color histogram). -/
def snapshot_to_row_analysis (snap : List (String × JVal)) : Row :=
  snapshotIdMeta snap
  ++ numericHistRowFrag (snapshotHist snap "creature_size") "creature_size" true
  ++ numericHistRowFrag (snapshotHist snap "health") "health" true
  ++ numericHistRowFrag (snapshotHist snap "food") "food" true
  ++ numericHistRowFrag (snapshotHist snap "age") "age" true
  ++ booleanHistRowFrag (snapshotHist snap "can_kill") "can_kill"
  ++ booleanHistRowFrag (snapshotHist snap "can_move") "can_move"

/-- Key-membership test for the tagged-union dispatch (`"K" in event_data`). -/
def hasKey (fields : List (String × JVal)) (k : String) : Bool :=
  (List.lookup k fields).isSome

/-- Lookup on a nested JSON value that the code guards with
`isinstance(..., dict)` (or whose non-dict case Python nulls out anyway). -/
def pyGetField (v : JVal) (k : String) : JVal :=
  match v with
  | JVal.obj fs => pyGet fs k
  | _ => JVal.null

/-- Region/param cells of the `CreateCreature` branch
(`ingest_bi.py` lines 418-460).  Note: this branch never assigns the six
`event_data_new_rules_*` keys. -/
def createCreatureCells (createData : JVal) : Row :=
  let region : JVal :=
    match createData with
    | JVal.arr (r :: _) => r
    | _ => JVal.obj []
  let regionCells : Row :=
    match region with
    | JVal.obj rf =>
      if hasKey rf "Ellipse" then
        let ellipse := pyGet rf "Ellipse"
        [("event_data_region_type", JVal.str "Ellipse"),
         ("event_data_region_x", pyGetField ellipse "x"),
         ("event_data_region_y", pyGetField ellipse "y"),
         ("event_data_region_radius_x", pyGetField ellipse "radius_x"),
         ("event_data_region_radius_y", pyGetField ellipse "radius_y")]
      else
        [("event_data_region_type", JVal.null),
         ("event_data_region_x", JVal.null),
         ("event_data_region_y", JVal.null),
         ("event_data_region_radius_x", JVal.null),
         ("event_data_region_radius_y", JVal.null)]
    | _ =>
      [("event_data_region_type", JVal.null),
       ("event_data_region_x", JVal.null),
       ("event_data_region_y", JVal.null),
       ("event_data_region_radius_x", JVal.null),
       ("event_data_region_radius_y", JVal.null)]
  let params : JVal :=
    match createData with
    | JVal.arr (_ :: p :: _) => p
    | _ => JVal.obj []
  let paramCells : Row :=
    match params with
    | JVal.obj pf =>
      let color := pyGet pf "color"
      let traits := pyGet pf "traits"
      [("event_data_color_r", pyGetField color "r"),
       ("event_data_color_g", pyGetField color "g"),
       ("event_data_color_b", pyGetField color "b"),
       ("event_data_traits_size", pyGetField traits "size"),
       ("event_data_traits_can_kill", pyGetField traits "can_kill"),
       ("event_data_traits_can_move", pyGetField traits "can_move"),
       ("event_data_starting_health", pyGet pf "starting_health")]
    | _ =>
      [("event_data_color_r", JVal.null),
       ("event_data_color_g", JVal.null),
       ("event_data_color_b", JVal.null),
       ("event_data_traits_size", JVal.null),
       ("event_data_traits_can_kill", JVal.null),
       ("event_data_traits_can_move", JVal.null),
       ("event_data_starting_health", JVal.null)]
  [("event_data_type", JVal.str "CreateCreature")]
  ++ regionCells ++ paramCells
  ++ [("event_data_value", JVal.null)]

/-- The five region cells set to null. -/
def regionNullCells : Row :=
  [("event_data_region_type", JVal.null),
   ("event_data_region_x", JVal.null),
   ("event_data_region_y", JVal.null),
   ("event_data_region_radius_x", JVal.null),
   ("event_data_region_radius_y", JVal.null)]

/-- The color/traits/starting-health cells set to null. -/
def traitsNullCells : Row :=
  [("event_data_color_r", JVal.null),
   ("event_data_color_g", JVal.null),
   ("event_data_color_b", JVal.null),
   ("event_data_traits_size", JVal.null),
   ("event_data_traits_can_kill", JVal.null),
   ("event_data_traits_can_move", JVal.null),
   ("event_data_starting_health", JVal.null)]

/-- The six new-rules cells set to null. -/
def newRulesNullCells : Row :=
  [("event_data_new_rules_health_cost_per_size_unit", JVal.null),
   ("event_data_new_rules_eat_capacity_per_size_unit", JVal.null),
   ("event_data_new_rules_health_cost_if_can_kill", JVal.null),
   ("event_data_new_rules_health_cost_if_can_move", JVal.null),
   ("event_data_new_rules_mutation_chance", JVal.null),
   ("event_data_new_rules_random_death_chance", JVal.null)]

/-- Cells of the `ChangeColonyRules` branch after `event_data_type`. -/
def changeColonyRulesCells (changeData : JVal) : Row :=
  let valueAndRules : Row :=
    match changeData with
    | JVal.obj cf =>
      let newRules := pyGetDict cf "new_rules"
      [("event_data_value", pyGet cf "description"),
       ("event_data_new_rules_health_cost_per_size_unit", pyGet newRules "health_cost_per_size_unit"),
       ("event_data_new_rules_eat_capacity_per_size_unit", pyGet newRules "eat_capacity_per_size_unit"),
       ("event_data_new_rules_health_cost_if_can_kill", pyGet newRules "health_cost_if_can_kill"),
       ("event_data_new_rules_health_cost_if_can_move", pyGet newRules "health_cost_if_can_move"),
       ("event_data_new_rules_mutation_chance", pyGet newRules "mutation_chance"),
       ("event_data_new_rules_random_death_chance", pyGet newRules "random_death_chance")]
    | _ => [("event_data_value", JVal.null)] ++ newRulesNullCells
  [("event_data_type", JVal.str "ChangeColonyRules")]
  ++ valueAndRules ++ regionNullCells ++ traitsNullCells

/-- Event-payload cells of `event_to_row`, dispatching on the single tag key
present in the payload mapping (`ingest_bi.py` lines 392-602). -/
def eventDataCells (ed : JVal) : Row :=
  match ed with
  | JVal.null =>
    [("event_data_type", JVal.null), ("event_data_value", JVal.null)]
    ++ regionNullCells ++ traitsNullCells ++ newRulesNullCells
  | JVal.obj fields =>
    if hasKey fields "CreateCreature" then
      createCreatureCells (pyGet fields "CreateCreature")
    else if hasKey fields "ChangeExtraFoodPerTick" then
      [("event_data_type", JVal.str "ChangeExtraFoodPerTick"),
       ("event_data_value", JVal.str (pyStr (pyGet fields "ChangeExtraFoodPerTick")))]
      ++ regionNullCells ++ traitsNullCells ++ newRulesNullCells
    else if hasKey fields "Extinction" then
      [("event_data_type", JVal.str "Extinction"), ("event_data_value", JVal.null)]
      ++ regionNullCells ++ traitsNullCells ++ newRulesNullCells
    else if hasKey fields "NewTopography" then
      [("event_data_type", JVal.str "NewTopography"), ("event_data_value", JVal.null)]
      ++ regionNullCells ++ traitsNullCells ++ newRulesNullCells
    else if hasKey fields "ChangeColonyRules" then
      changeColonyRulesCells (pyGet fields "ChangeColonyRules")
    else
      [("event_data_type", JVal.str "Unknown"),
       ("event_data_value",
        if fields.isEmpty then JVal.null else JVal.str (jsonDumps (JVal.obj fields)))]
      ++ regionNullCells ++ traitsNullCells ++ newRulesNullCells
  | _ =>
    [("event_data_type", JVal.null),
     ("event_data_value", JVal.str (pyStr ed))]
    ++ regionNullCells ++ traitsNullCells ++ newRulesNullCells

/-- Model of `event_to_row` from `src/bi/ingest_bi.py`. -/
def event_to_row (event : List (String × JVal)) : Row :=
  let rules := pyGetDict event "rules"
  [("colony_id", pyGet event "colony_instance_id"),
   ("tick", pyGet event "tick"),
   ("event_type", pyGet event "event_type"),
   ("event_description", pyGet event "event_description"),
   ("rules_health_cost_per_size_unit", pyGet rules "health_cost_per_size_unit"),
   ("rules_eat_capacity_per_size_unit", pyGet rules "eat_capacity_per_size_unit"),
   ("rules_health_cost_if_can_kill", pyGet rules "health_cost_if_can_kill"),
   ("rules_health_cost_if_can_move", pyGet rules "health_cost_if_can_move"),
   ("rules_mutation_chance", pyGet rules "mutation_chance"),
   ("rules_random_death_chance", pyGet rules "random_death_chance")]
  ++ eventDataCells (pyGet event "event_data")

/-- Check `row.get("colony_id") != colony_id` of the processing loops:
a Python string only ever equals another string, so any non-string payload
id (including the `None` of a missing key) counts as a mismatch. -/
def colonyMismatch (r : Row) (cid : String) : Bool :=
  match pyGet r "colony_id" with
  | JVal.str s => s != cid
  | _ => true

/-- Error message raised on a colony-id mismatch (the f-string of the
`raise ValueError(...)` in both scripts). -/
def mismatchMsg (key : String) (r : Row) (cid : String) : String :=
  "Colony ID mismatch for key " ++ key ++ ": payload colony_instance_id="
    ++ pyStr (pyGet r "colony_id") ++ ", expected " ++ cid

/-- Per-object loop of `process_colony`: read each (key, parsed object) in
order, build its row, raise on colony-id mismatch (modelled as
`Except.error`, which discards all accumulated rows), else append. -/
def runRows (cid : String) (toRow : List (String × JVal) → Row) :
    List (String × List (String × JVal)) → Except String (List Row)
  | [] => Except.ok []
  | (key, o) :: rest =>
    let r := toRow o
    if colonyMismatch r cid then Except.error (mismatchMsg key r cid)
    else
      match runRows cid toRow rest with
      | Except.error e => Except.error e
      | Except.ok rows => Except.ok (r :: rows)

/-- Observable outcome of one `process_colony` call of `ingest_bi.py`:
which Parquet tables were written (as row lists) and whether the call
raised.  An exception in the stats phase aborts before events are read; an
exception in the events phase leaves an already-written stats Parquet in
place. -/
structure ColonyResult where
  statsOut : Option (List Row)
  eventsOut : Option (List Row)
  error : Option String

/-- Events phase of `process_colony` (`ingest_bi.py` lines 661-694). -/
def processEventsPhase (cid : String) (statsOut : Option (List Row))
    (eventObjs : List (String × List (String × JVal))) : ColonyResult :=
  if eventObjs.isEmpty then { statsOut := statsOut, eventsOut := none, error := none }
  else
    match runRows cid event_to_row eventObjs with
    | Except.error e => { statsOut := statsOut, eventsOut := none, error := some e }
    | Except.ok rows =>
      { statsOut := statsOut
        eventsOut := if rows.isEmpty then none else some rows
        error := none }

/-- Model of `process_colony` from `src/bi/ingest_bi.py`: stats phase then
events phase, each over the listed (key, parsed JSON) pairs in order. -/
def process_colony_ingest (cid : String)
    (statsObjs eventObjs : List (String × List (String × JVal))) : ColonyResult :=
  if statsObjs.isEmpty then processEventsPhase cid none eventObjs
  else
    match runRows cid snapshot_to_row_ingest statsObjs with
    | Except.error e => { statsOut := none, eventsOut := none, error := some e }
    | Except.ok rows =>
      processEventsPhase cid (if rows.isEmpty then none else some rows) eventObjs

/-- Model of `process_colony` from `src/analysis/stats_shots_to_parquet.py`
(single stats table): (written Parquet rows, raised error). -/
def process_colony_analysis (cid : String)
    (objs : List (String × List (String × JVal))) : Option (List Row) × Option String :=
  if objs.isEmpty then (none, none)
  else
    match runRows cid snapshot_to_row_analysis objs with
    | Except.error e => (none, some e)
    | Except.ok rows =>
      if rows.isEmpty then
        (none, some ("[" ++ cid ++ "] No rows produced from stats_shots JSON."))
      else (some rows, none)

example : validItems [("1", JVal.num 1), ("3", JVal.num 3)] = [(1, 1), (3, 3)] := by decide
example : pyFloatOfString "2.5" = some (5/2) := by decide
example : pyFloatOfString "-1.5e1" = some (-15) := by decide
example : pyFloatOfString "." = none := by decide
example : pyInt (JVal.num (5/2)) = some 2 := by decide
example : pyInt (JVal.num (-5/2)) = some (-2) := by decide
example : pyIntOfString "-12" = some (-12) := by decide
example : pyIntOfString "2.0" = none := by decide
example :
    (summarize_numeric_hist
      { distribution := some [("1", JVal.num 1), ("3", JVal.num 3)],
        average := none, was_cut := none, unique_values_count := none } true).mean
    = some (5/2) := by decide

/-! Shared facts about the valid-item extraction and the sort. -/

theorem validItems_count_pos {d : List (String × JVal)} {x : ℚ × ℤ}
    (hx : x ∈ validItems d) : 0 < x.2 := by
  simp only [validItems, List.mem_filterMap] at hx
  obtain ⟨kv, _, hkv⟩ := hx
  split at hkv
  · split at hkv
    · cases hkv
    · next hpos =>
      rw [Option.some.injEq] at hkv
      subst hkv
      simpa using lt_of_not_le hpos
  · cases hkv

theorem sortItems_perm (l : List (ℚ × ℤ)) : List.Perm (sortItems l) l :=
  List.mergeSort_perm l itemLe

theorem sortItems_sorted (l : List (ℚ × ℤ)) :
    (sortItems l).Pairwise (fun a b : ℚ × ℤ => a.1 ≤ b.1) := by
  have h : (List.mergeSort l itemLe).Pairwise (fun a b => itemLe a b = true) :=
    List.sorted_mergeSort
      (fun a b c hab hbc => by
        simp only [itemLe, decide_eq_true_eq] at hab hbc ⊢
        exact le_trans hab hbc)
      (fun a b => by
        simp only [itemLe, Bool.or_eq_true, decide_eq_true_eq]
        exact le_total a.1 b.1)
      l
  refine h.imp ?_
  intro a b hab
  simpa [itemLe] using hab

theorem sortItems_count_sum (l : List (ℚ × ℤ)) :
    ((sortItems l).map Prod.snd).sum = (l.map Prod.snd).sum :=
  ((sortItems_perm l).map Prod.snd).sum_eq

theorem sortItems_weighted_sum (l : List (ℚ × ℤ)) :
    ((sortItems l).map fun x => x.1 * (x.2 : ℚ)).sum = (l.map fun x => x.1 * (x.2 : ℚ)).sum :=
  ((sortItems_perm l).map _).sum_eq

theorem validItems_total_pos {d : List (String × JVal)}
    (hne : validItems d ≠ []) : 0 < ((validItems d).map Prod.snd).sum := by
  refine List.sum_pos _ ?_ ?_
  · intro x hx
    obtain ⟨p, hp, rfl⟩ := List.mem_map.mp hx
    exact validItems_count_pos hp
  · simpa using hne

theorem sortItems_total_pos {d : List (String × JVal)}
    (hne : validItems d ≠ []) : 0 < ((sortItems (validItems d)).map Prod.snd).sum := by
  rw [sortItems_count_sum]
  exact validItems_total_pos hne

/-- C3: a histogram with no valid entries yields null statistics and
passes `was_cut` (defaulted to false) and `unique_values_count` through. -/
theorem c3_empty_numeric_summary (h : Hist) (b : Bool)
    (hempty : validItems (h.distribution.getD []) = []) :
    (summarize_numeric_hist h b).mean = none ∧
    (summarize_numeric_hist h b).avg = none ∧
    (summarize_numeric_hist h b).p50 = none ∧
    (summarize_numeric_hist h b).p90 = none ∧
    (summarize_numeric_hist h b).p99 = none ∧
    (summarize_numeric_hist h b).was_cut = h.was_cut.getD (JVal.bool false) ∧
    (summarize_numeric_hist h b).unique_values_count = h.unique_values_count.getD JVal.null := by
  simp [summarize_numeric_hist, hempty]

/-- Witness: a distribution holding only an unparsable key, a zero count and
an unparsable count is summarized to all-null statistics with its
`unique_values_count` passed through. -/
theorem c3_empty_numeric_summary_witness :
    validItems ((Hist.mk (some [("x", JVal.num 1), ("2", JVal.num 0), ("3", JVal.str "abc")])
        none none (some (JVal.num 7))).distribution.getD []) = [] ∧
    (summarize_numeric_hist (Hist.mk (some [("x", JVal.num 1), ("2", JVal.num 0), ("3", JVal.str "abc")])
        none none (some (JVal.num 7))) true).mean = none ∧
    (summarize_numeric_hist (Hist.mk (some [("x", JVal.num 1), ("2", JVal.num 0), ("3", JVal.str "abc")])
        none none (some (JVal.num 7))) true).unique_values_count = JVal.num 7 := by
  have h := c3_empty_numeric_summary
    (Hist.mk (some [("x", JVal.num 1), ("2", JVal.num 0), ("3", JVal.str "abc")])
      none none (some (JVal.num 7))) true (by decide)
  exact ⟨by decide, h.1, h.2.2.2.2.2.2⟩


/-- C6: with no precomputed average supplied, `mean` and `avg` both equal
the count-weighted mean `sum(value*count) / sum(count)` over the valid
entries of the distribution. -/
theorem c6_weighted_mean (h : Hist) (b : Bool)
    (ha : h.average = none)
    (hne : validItems (h.distribution.getD []) ≠ []) :
    (summarize_numeric_hist h b).mean =
      some ((((validItems (h.distribution.getD [])).map fun x => x.1 * (x.2 : ℚ)).sum)
        / ((((validItems (h.distribution.getD [])).map Prod.snd).sum : ℤ) : ℚ)) ∧
    (summarize_numeric_hist h b).avg =
      some ((((validItems (h.distribution.getD [])).map fun x => x.1 * (x.2 : ℚ)).sum)
        / ((((validItems (h.distribution.getD [])).map Prod.snd).sum : ℤ) : ℚ)) := by
  have htot := sortItems_total_pos hne
  constructor <;>
  · simp only [summarize_numeric_hist, if_neg hne, ha]
    cases b <;>
      simp [if_pos htot, sortItems_weighted_sum, sortItems_count_sum, validItems_total_pos hne]

/-- Witness: the distribution with value 1 at count 1 and value 3 at count
3 has mean (1*1+3*3)/4 = 2.5. -/
theorem c6_weighted_mean_witness :
    (Hist.mk (some [("1", JVal.num 1), ("3", JVal.num 3)]) none none none).average = none ∧
    validItems ((Hist.mk (some [("1", JVal.num 1), ("3", JVal.num 3)]) none none none).distribution.getD []) ≠ [] ∧
    (summarize_numeric_hist (Hist.mk (some [("1", JVal.num 1), ("3", JVal.num 3)]) none none none) true).mean
      = some 2.5 := by
  have h := c6_weighted_mean
    (Hist.mk (some [("1", JVal.num 1), ("3", JVal.num 3)]) none none none) true rfl (by decide)
  refine ⟨rfl, by decide, ?_⟩
  rw [h.1]
  decide

/-- C7: a supplied non-null average takes precedence for the `average`
column of the boolean summarizer, while `true_fraction` is always derived
from the extracted counts (null exactly when their total is not positive). -/
theorem c7_boolean_average_precedence (h : Hist) (tk fk : String) (a : ℚ)
    (ha : h.average = some a) :
    (summarize_boolean_hist h tk fk).average = some a ∧
    (summarize_boolean_hist h tk fk).true_fraction =
      (if 0 < (summarize_boolean_hist h tk fk).true_count + (summarize_boolean_hist h tk fk).false_count
       then some (((summarize_boolean_hist h tk fk).true_count : ℚ) /
         (((summarize_boolean_hist h tk fk).true_count + (summarize_boolean_hist h tk fk).false_count : ℤ) : ℚ))
       else none) := by
  constructor <;> simp [summarize_boolean_hist, ha]

/-- Witness: distribution 0↦1, 1↦1 with supplied average 0.75 yields
average 0.75 and true fraction 0.5. -/
theorem c7_boolean_average_precedence_witness :
    (Hist.mk (some [("0", JVal.num 1), ("1", JVal.num 1)]) (some 0.75) none none).average = some 0.75 ∧
    (summarize_boolean_hist (Hist.mk (some [("0", JVal.num 1), ("1", JVal.num 1)]) (some 0.75) none none)
      "1" "0").average = some 0.75 ∧
    (summarize_boolean_hist (Hist.mk (some [("0", JVal.num 1), ("1", JVal.num 1)]) (some 0.75) none none)
      "1" "0").true_fraction = some 0.5 := by
  have h := c7_boolean_average_precedence
    (Hist.mk (some [("0", JVal.num 1), ("1", JVal.num 1)]) (some 0.75) none none) "1" "0" 0.75 rfl
  refine ⟨rfl, h.1, ?_⟩
  rw [h.2]
  decide

/-- C10: the boolean summarizer always produces integer counts — a missing
or uncoercible entry counts as 0 — and, on data-model-conforming inputs
(non-negative counts, as §3 of the spec requires of histograms),
`true_fraction` and `average` are both null exactly when the count total is
0 and no precomputed average was supplied. -/
theorem c10_boolean_null_conditions (h : Hist) (tk fk : String)
    (htc : 0 ≤ (summarize_boolean_hist h tk fk).true_count)
    (hfc : 0 ≤ (summarize_boolean_hist h tk fk).false_count) :
    ((List.lookup tk (h.distribution.getD [])).bind pyInt = none →
      (summarize_boolean_hist h tk fk).true_count = 0) ∧
    ((List.lookup fk (h.distribution.getD [])).bind pyInt = none →
      (summarize_boolean_hist h tk fk).false_count = 0) ∧
    (((summarize_boolean_hist h tk fk).true_fraction = none ∧
      (summarize_boolean_hist h tk fk).average = none)
      ↔ ((summarize_boolean_hist h tk fk).true_count + (summarize_boolean_hist h tk fk).false_count = 0
          ∧ h.average = none)) := by
  refine ⟨?_, ?_, ?_⟩
  · intro hnone
    simp only [summarize_boolean_hist, boolCount]
    rcases hl : List.lookup tk (h.distribution.getD []) with _ | v
    · rfl
    · rw [hl] at hnone
      simp at hnone
      simp [hnone]
  · intro hnone
    simp only [summarize_boolean_hist, boolCount]
    rcases hl : List.lookup fk (h.distribution.getD []) with _ | v
    · rfl
    · rw [hl] at hnone
      simp at hnone
      simp [hnone]
  · simp only [summarize_boolean_hist] at htc hfc ⊢
    rcases ha : h.average with _ | a
    · by_cases hpos : 0 < boolCount (h.distribution.getD []) tk + boolCount (h.distribution.getD []) fk
      · simp [hpos]
        omega
      · simp [hpos]
        omega
    · by_cases hpos : 0 < boolCount (h.distribution.getD []) tk + boolCount (h.distribution.getD []) fk
      · simp [hpos]
      · simp [hpos]

/-- Witness: a distribution whose only true-key entry is a JSON null (which
`int()` cannot coerce) yields count 0, and with no entries counted and no
supplied average both `true_fraction` and `average` are null. -/
theorem c10_boolean_null_conditions_witness :
    (summarize_boolean_hist (Hist.mk (some [("1", JVal.null)]) none none none) "1" "0").true_count = 0 ∧
    ((summarize_boolean_hist (Hist.mk (some [("1", JVal.null)]) none none none) "1" "0").true_fraction = none ∧
     (summarize_boolean_hist (Hist.mk (some [("1", JVal.null)]) none none none) "1" "0").average = none) := by
  have h := c10_boolean_null_conditions (Hist.mk (some [("1", JVal.null)]) none none none) "1" "0"
    (by decide) (by decide)
  exact ⟨h.1 (by decide), h.2.2.mpr ⟨by decide, rfl⟩⟩

/-! Percentile-walk characterization and monotonicity. -/

/-- Cumulative count of the first `n` entries of an item list. -/
def cumCount (l : List (ℚ × ℤ)) (n : ℕ) : ℤ := ((l.take n).map Prod.snd).sum

theorem cumCount_cons (x : ℚ × ℤ) (l : List (ℚ × ℤ)) (n : ℕ) :
    cumCount (x :: l) (n + 1) = x.2 + cumCount l n := by
  simp [cumCount]

theorem cumCount_one (x : ℚ × ℤ) (l : List (ℚ × ℤ)) : cumCount (x :: l) 1 = x.2 := by
  simp [cumCount]

theorem percScan_some_iff (items : List (ℚ × ℤ)) (t : ℚ) :
    ∀ (r : ℤ) (v : ℚ),
      percScan items t r = some v ↔
        ∃ j, ∃ hj : j < items.length, v = (items.get ⟨j, hj⟩).1 ∧
          t ≤ ((r + cumCount items (j + 1) : ℤ) : ℚ) ∧
          ∀ i, i < j → (((r + cumCount items (i + 1) : ℤ) : ℚ) < t) := by
  induction items with
  | nil => intro r v; simp [percScan]
  | cons x rest ih =>
    intro r v
    obtain ⟨v₀, c⟩ := x
    by_cases hc : t ≤ ((r + c : ℤ) : ℚ)
    · simp only [percScan, if_pos hc]
      constructor
      · intro hsome
        obtain rfl : v₀ = v := Option.some.inj hsome
        refine ⟨0, by simp, rfl, ?_, by omega⟩
        rw [cumCount_one]
        exact hc
      · rintro ⟨j, hj, hv, hle, hlt⟩
        cases j with
        | zero => simp [hv]
        | succ j' =>
          exfalso
          have h0 := hlt 0 (Nat.succ_pos _)
          rw [cumCount_one] at h0
          exact absurd hc (not_le.mpr h0)
    · simp only [percScan, if_neg hc]
      rw [ih (r + c) v]
      constructor
      · rintro ⟨j', hj', hv, hle, hlt⟩
        refine ⟨j' + 1, Nat.succ_lt_succ hj', by simpa using hv, ?_, ?_⟩
        · rw [cumCount_cons]
          push_cast at hle ⊢
          linarith
        · intro i hi
          cases i with
          | zero =>
            rw [cumCount_one]
            exact lt_of_not_le hc
          | succ i' =>
            have hi' := hlt i' (Nat.lt_of_succ_lt_succ hi)
            rw [cumCount_cons]
            push_cast at hi' ⊢
            linarith
      · rintro ⟨j, hj, hv, hle, hlt⟩
        cases j with
        | zero =>
          exfalso
          rw [cumCount_one] at hle
          exact hc hle
        | succ j' =>
          refine ⟨j', Nat.lt_of_succ_lt_succ hj, by simpa using hv, ?_, ?_⟩
          · rw [cumCount_cons] at hle
            push_cast at hle ⊢
            linarith
          · intro i hi
            have := hlt (i + 1) (Nat.succ_lt_succ hi)
            rw [cumCount_cons] at this
            push_cast at this ⊢
            linarith

theorem percScan_none_iff (items : List (ℚ × ℤ)) (t : ℚ) :
    ∀ (r : ℤ),
      percScan items t r = none ↔
        ∀ j, j < items.length → (((r + cumCount items (j + 1) : ℤ) : ℚ) < t) := by
  induction items with
  | nil => intro r; simp [percScan]
  | cons x rest ih =>
    intro r
    obtain ⟨v₀, c⟩ := x
    by_cases hc : t ≤ ((r + c : ℤ) : ℚ)
    · simp only [percScan, if_pos hc]
      constructor
      · intro h; cases h
      · intro hall
        have h0 := hall 0 (Nat.succ_pos _)
        rw [cumCount_one] at h0
        exact absurd hc (not_le.mpr h0)
    · simp only [percScan, if_neg hc]
      rw [ih (r + c)]
      constructor
      · intro hall j hj
        cases j with
        | zero =>
          rw [cumCount_one]
          exact lt_of_not_le hc
        | succ j' =>
          have := hall j' (Nat.lt_of_succ_lt_succ hj)
          rw [cumCount_cons]
          push_cast at this ⊢
          linarith
      · intro hall j hj
        have := hall (j + 1) (Nat.succ_lt_succ hj)
        rw [cumCount_cons] at this
        push_cast at this ⊢
        linarith

theorem percScan_mem {items : List (ℚ × ℤ)} {t : ℚ} :
    ∀ {r : ℤ} {v : ℚ}, percScan items t r = some v → v ∈ items.map Prod.fst := by
  induction items with
  | nil => intro r v h; cases h
  | cons x rest ih =>
    intro r v h
    obtain ⟨v₀, c⟩ := x
    by_cases hc : t ≤ ((r + c : ℤ) : ℚ)
    · simp only [percScan, if_pos hc] at h
      obtain rfl : v₀ = v := Option.some.inj h
      simp
    · simp only [percScan, if_neg hc] at h
      simp [ih h]

theorem percScan_mono (t1 t2 : ℚ) (hle : t1 ≤ t2) :
    ∀ (items : List (ℚ × ℤ)),
      items.Pairwise (fun a b : ℚ × ℤ => a.1 ≤ b.1) →
      ∀ (r : ℤ) (v2 : ℚ), percScan items t2 r = some v2 →
        ∃ v1, percScan items t1 r = some v1 ∧ v1 ≤ v2 := by
  intro items
  induction items with
  | nil => intro _ r v2 h2; cases h2
  | cons x rest ih =>
    intro hs r v2 h2
    obtain ⟨hhead, htail⟩ := List.pairwise_cons.mp hs
    obtain ⟨v₀, c⟩ := x
    by_cases hc2 : t2 ≤ ((r + c : ℤ) : ℚ)
    · simp only [percScan, if_pos hc2] at h2
      obtain rfl : v₀ = v2 := Option.some.inj h2
      have hc1 : t1 ≤ ((r + c : ℤ) : ℚ) := le_trans hle hc2
      exact ⟨v₀, by simp only [percScan, if_pos hc1], le_refl _⟩
    · simp only [percScan, if_neg hc2] at h2
      by_cases hc1 : t1 ≤ ((r + c : ℤ) : ℚ)
      · refine ⟨v₀, by simp only [percScan, if_pos hc1], ?_⟩
        obtain ⟨pair, hpair, hfst⟩ := List.mem_map.mp (percScan_mem h2)
        rw [← hfst]
        exact hhead pair hpair
      · obtain ⟨v1, hv1, hlev⟩ := ih htail (r + c) v2 h2
        exact ⟨v1, by simp only [percScan, if_neg hc1, hv1], hlev⟩

theorem lastVal_cons_cons (x y : ℚ × ℤ) (l : List (ℚ × ℤ)) :
    lastVal (x :: y :: l) = lastVal (y :: l) := by
  simp [lastVal]

theorem lastVal_mem {items : List (ℚ × ℤ)} (hne : items ≠ []) :
    lastVal items ∈ items.map Prod.fst := by
  induction items with
  | nil => exact absurd rfl hne
  | cons x rest ih =>
    rcases rest with _ | ⟨y, rest'⟩
    · simp [lastVal]
    · rw [lastVal_cons_cons]
      simp only [List.map_cons, List.mem_cons]
      right
      simpa using ih (by simp)

theorem mem_le_lastVal :
    ∀ {items : List (ℚ × ℤ)},
      items.Pairwise (fun a b : ℚ × ℤ => a.1 ≤ b.1) →
      ∀ {v : ℚ}, v ∈ items.map Prod.fst → v ≤ lastVal items := by
  intro items
  induction items with
  | nil => intro _ v hv; simp at hv
  | cons x rest ih =>
    intro hs v hv
    obtain ⟨hhead, htail⟩ := List.pairwise_cons.mp hs
    rcases rest with _ | ⟨y, rest'⟩
    · simp only [List.map_cons, List.map_nil, List.mem_singleton] at hv
      subst hv
      simp [lastVal]
    · rw [lastVal_cons_cons]
      simp only [List.map_cons, List.mem_cons] at hv
      rcases hv with rfl | hv'
      · have hy : y.1 ≤ lastVal (y :: rest') :=
          ih htail (by simp)
        exact le_trans (hhead y (by simp)) hy
      · exact ih htail (by simpa using hv')

/-- Statement of the spec's percentile contract for one probability `p`:
the result is the value of the first entry, in the given (ascending) order,
whose running cumulative count reaches or exceeds `total_count * p`, and the
last entry's value (the maximum, as the list is sorted ascending) if no
entry reaches the threshold. -/
def percSpecHolds (items : List (ℚ × ℤ)) (total : ℤ) (p : ℚ) (res : Option ℚ) : Prop :=
  ∃ v, res = some v ∧
    ((∃ j, ∃ hj : j < items.length, v = (items.get ⟨j, hj⟩).1 ∧
        (total : ℚ) * p ≤ ((cumCount items (j + 1) : ℤ) : ℚ) ∧
        ∀ i, i < j → (((cumCount items (i + 1) : ℤ) : ℚ) < (total : ℚ) * p))
     ∨ (v = lastVal items ∧
        ∀ j, j < items.length → (((cumCount items (j + 1) : ℤ) : ℚ) < (total : ℚ) * p)))

theorem percentileFn_spec (items : List (ℚ × ℤ)) (total : ℤ) (p : ℚ) (ht : 0 < total) :
    percSpecHolds items total p (percentileFn items total p) := by
  unfold percentileFn
  rw [if_neg (not_le.mpr ht)]
  rcases hscan : percScan items ((total : ℚ) * p) 0 with _ | v
  · refine ⟨lastVal items, by simp, Or.inr ⟨rfl, ?_⟩⟩
    have hall := (percScan_none_iff items ((total : ℚ) * p) 0).mp hscan
    intro j hj
    simpa using hall j hj
  · refine ⟨v, by simp, Or.inl ?_⟩
    obtain ⟨j, hj, hv, hle, hlt⟩ := (percScan_some_iff items ((total : ℚ) * p) 0 v).mp hscan
    exact ⟨j, hj, hv, by simpa using hle, fun i hi => by simpa using hlt i hi⟩

/-- C4: for each p ∈ {0.5, 0.9, 0.99}, the emitted percentile is the value
of the first entry, in ascending value order, whose running cumulative
count reaches or exceeds `total * p`, and the last (maximum) value if no
entry reaches the threshold. -/
theorem c4_percentile_contract (h : Hist) (b : Bool)
    (hne : validItems (h.distribution.getD []) ≠ []) :
    percSpecHolds (sortItems (validItems (h.distribution.getD [])))
      (((sortItems (validItems (h.distribution.getD []))).map Prod.snd).sum) 0.5
      ((summarize_numeric_hist h b).p50) ∧
    percSpecHolds (sortItems (validItems (h.distribution.getD [])))
      (((sortItems (validItems (h.distribution.getD []))).map Prod.snd).sum) 0.9
      ((summarize_numeric_hist h b).p90) ∧
    percSpecHolds (sortItems (validItems (h.distribution.getD [])))
      (((sortItems (validItems (h.distribution.getD []))).map Prod.snd).sum) 0.99
      ((summarize_numeric_hist h b).p99) := by
  have htot := sortItems_total_pos hne
  refine ⟨?_, ?_, ?_⟩ <;>
  · simp only [summarize_numeric_hist, if_neg hne]
    exact percentileFn_spec _ _ _ htot

/-- Witness: the sorted distribution 1↦1, 3↦3 meets the percentile
contract at p = 0.5 (threshold 2, first entry reaching it has value 3). -/
theorem c4_percentile_contract_witness :
    validItems ((Hist.mk (some [("1", JVal.num 1), ("3", JVal.num 3)]) none none none).distribution.getD []) ≠ [] ∧
    percSpecHolds (sortItems (validItems [("1", JVal.num 1), ("3", JVal.num 3)]))
      (((sortItems (validItems [("1", JVal.num 1), ("3", JVal.num 3)])).map Prod.snd).sum) 0.5
      ((summarize_numeric_hist (Hist.mk (some [("1", JVal.num 1), ("3", JVal.num 3)]) none none none) true).p50) := by
  refine ⟨by decide, ?_⟩
  exact (c4_percentile_contract
    (Hist.mk (some [("1", JVal.num 1), ("3", JVal.num 3)]) none none none) true (by decide)).1

theorem percVal_mono {items : List (ℚ × ℤ)}
    (hs : items.Pairwise (fun a b : ℚ × ℤ => a.1 ≤ b.1))
    {t1 t2 : ℚ} (hle : t1 ≤ t2) :
    (percScan items t1 0).getD (lastVal items) ≤ (percScan items t2 0).getD (lastVal items) := by
  rcases h2 : percScan items t2 0 with _ | v2
  · rcases h1 : percScan items t1 0 with _ | v1
    · simp
    · simpa using mem_le_lastVal hs (percScan_mem h1)
  · obtain ⟨v1, hv1, hlev⟩ := percScan_mono t1 t2 hle items hs 0 v2 h2
    simpa [hv1] using hlev

theorem percVal_mem {items : List (ℚ × ℤ)} (hne : items ≠ []) (t : ℚ) :
    (percScan items t 0).getD (lastVal items) ∈ items.map Prod.fst := by
  rcases h : percScan items t 0 with _ | v
  · simpa using lastVal_mem hne
  · simpa using percScan_mem h

theorem sortItems_ne_nil {d : List (String × JVal)}
    (hne : validItems d ≠ []) : sortItems (validItems d) ≠ [] := by
  intro hcon
  have := (sortItems_perm (validItems d)).length_eq
  rw [hcon] at this
  exact hne (List.eq_nil_of_length_eq_zero this.symm)

/-- C5: on a histogram with at least one valid entry, the three emitted
percentiles satisfy p50 ≤ p90 ≤ p99, and all three are values of the sorted
support of the histogram. -/
theorem c5_percentile_monotone (h : Hist) (b : Bool)
    (hne : validItems (h.distribution.getD []) ≠ []) :
    ∃ a50 a90 a99 : ℚ,
      (summarize_numeric_hist h b).p50 = some a50 ∧
      (summarize_numeric_hist h b).p90 = some a90 ∧
      (summarize_numeric_hist h b).p99 = some a99 ∧
      a50 ≤ a90 ∧ a90 ≤ a99 ∧
      a50 ∈ (sortItems (validItems (h.distribution.getD []))).map Prod.fst ∧
      a90 ∈ (sortItems (validItems (h.distribution.getD []))).map Prod.fst ∧
      a99 ∈ (sortItems (validItems (h.distribution.getD []))).map Prod.fst := by
  have htot := sortItems_total_pos hne
  have hs := sortItems_sorted (validItems (h.distribution.getD []))
  have hnil := sortItems_ne_nil hne
  have hcast : (0 : ℚ) ≤ (((sortItems (validItems (h.distribution.getD []))).map Prod.snd).sum : ℚ) := by
    exact_mod_cast le_of_lt htot
  have eq : ∀ p : ℚ,
      percentileFn (sortItems (validItems (h.distribution.getD [])))
        (((sortItems (validItems (h.distribution.getD []))).map Prod.snd).sum) p
      = some ((percScan (sortItems (validItems (h.distribution.getD [])))
          (((((sortItems (validItems (h.distribution.getD []))).map Prod.snd).sum : ℤ) : ℚ) * p) 0).getD
          (lastVal (sortItems (validItems (h.distribution.getD []))))) := by
    intro p
    unfold percentileFn
    rw [if_neg (not_le.mpr htot)]
  have e50 : (summarize_numeric_hist h b).p50
      = some ((percScan (sortItems (validItems (h.distribution.getD [])))
          (((((sortItems (validItems (h.distribution.getD []))).map Prod.snd).sum : ℤ) : ℚ) * 0.5) 0).getD
          (lastVal (sortItems (validItems (h.distribution.getD []))))) := by
    simp only [summarize_numeric_hist, if_neg hne]
    exact eq 0.5
  have e90 : (summarize_numeric_hist h b).p90
      = some ((percScan (sortItems (validItems (h.distribution.getD [])))
          (((((sortItems (validItems (h.distribution.getD []))).map Prod.snd).sum : ℤ) : ℚ) * 0.9) 0).getD
          (lastVal (sortItems (validItems (h.distribution.getD []))))) := by
    simp only [summarize_numeric_hist, if_neg hne]
    exact eq 0.9
  have e99 : (summarize_numeric_hist h b).p99
      = some ((percScan (sortItems (validItems (h.distribution.getD [])))
          (((((sortItems (validItems (h.distribution.getD []))).map Prod.snd).sum : ℤ) : ℚ) * 0.99) 0).getD
          (lastVal (sortItems (validItems (h.distribution.getD []))))) := by
    simp only [summarize_numeric_hist, if_neg hne]
    exact eq 0.99
  refine ⟨_, _, _, e50, e90, e99, ?_, ?_, ?_, ?_, ?_⟩
  · exact percVal_mono hs (mul_le_mul_of_nonneg_left (by norm_num) hcast)
  · exact percVal_mono hs (mul_le_mul_of_nonneg_left (by norm_num) hcast)
  · exact percVal_mem hnil _
  · exact percVal_mem hnil _
  · exact percVal_mem hnil _

/-- Witness: the percentiles of the distribution 1↦1, 3↦3 are ordered and
drawn from the sorted support. -/
theorem c5_percentile_monotone_witness :
    validItems ((Hist.mk (some [("1", JVal.num 1), ("3", JVal.num 3)]) none none none).distribution.getD []) ≠ [] ∧
    ∃ a50 a90 a99 : ℚ,
      (summarize_numeric_hist (Hist.mk (some [("1", JVal.num 1), ("3", JVal.num 3)]) none none none) true).p50 = some a50 ∧
      (summarize_numeric_hist (Hist.mk (some [("1", JVal.num 1), ("3", JVal.num 3)]) none none none) true).p90 = some a90 ∧
      (summarize_numeric_hist (Hist.mk (some [("1", JVal.num 1), ("3", JVal.num 3)]) none none none) true).p99 = some a99 ∧
      a50 ≤ a90 ∧ a90 ≤ a99 ∧
      a50 ∈ (sortItems (validItems [("1", JVal.num 1), ("3", JVal.num 3)])).map Prod.fst ∧
      a90 ∈ (sortItems (validItems [("1", JVal.num 1), ("3", JVal.num 3)])).map Prod.fst ∧
      a99 ∈ (sortItems (validItems [("1", JVal.num 1), ("3", JVal.num 3)])).map Prod.fst := by
  refine ⟨by decide, ?_⟩
  exact c5_percentile_monotone
    (Hist.mk (some [("1", JVal.num 1), ("3", JVal.num 3)]) none none none) true (by decide)

/-! Color-histogram ranking. -/

theorem rankedColors_perm (dist : List (String × JVal)) :
    List.Perm (rankedColors dist) (validColorEntries dist) :=
  List.mergeSort_perm (validColorEntries dist) colorLe

theorem rankedColors_sorted (dist : List (String × JVal)) :
    (rankedColors dist).Pairwise (fun a b : String × ℤ => b.2 ≤ a.2) := by
  have h : (List.mergeSort (validColorEntries dist) colorLe).Pairwise
      (fun a b => colorLe a b = true) :=
    List.sorted_mergeSort
      (fun a b c hab hbc => by
        simp only [colorLe, decide_eq_true_eq] at hab hbc ⊢
        exact le_trans hbc hab)
      (fun a b => by
        simp only [colorLe, Bool.or_eq_true, decide_eq_true_eq]
        exact le_total b.2 a.2)
      (validColorEntries dist)
  refine h.imp ?_
  intro a b hab
  simpa [colorLe] using hab

/-- C8: the color summarizer ranks the distribution's valid (positive,
coercible count) entries by count descending, fills ranks 1..5 with them
(null when fewer exist), aliases rank 1 as dominant, and on the example
distribution 1_2_3↦5, 4_5_6↦9, 7_8_9↦1 produces top1 = 4_5_6 (9),
top2 = 1_2_3 (5), top3 = 7_8_9 (1), null top4/top5, dominant 4_5_6. -/
theorem c8_color_ranking (h : Hist) :
    (rankedColors (h.distribution.getD [])).Pairwise (fun a b : String × ℤ => b.2 ≤ a.2) ∧
    List.Perm (rankedColors (h.distribution.getD [])) (validColorEntries (h.distribution.getD [])) ∧
    (∀ i, i < 5 → (summarize_original_color_hist h 5).tops[i]?
        = some ((rankedColors (h.distribution.getD []))[i]?)) ∧
    (summarize_original_color_hist h 5).dominant = (rankedColors (h.distribution.getD []))[0]? ∧
    (rankedColors [("1_2_3", JVal.num 5), ("4_5_6", JVal.num 9), ("7_8_9", JVal.num 1)]
      = [("4_5_6", 9), ("1_2_3", 5), ("7_8_9", 1)] ∧
     (summarize_original_color_hist
        (Hist.mk (some [("1_2_3", JVal.num 5), ("4_5_6", JVal.num 9), ("7_8_9", JVal.num 1)])
          none none none) 5).tops
      = [some ("4_5_6", 9), some ("1_2_3", 5), some ("7_8_9", 1), none, none] ∧
     (summarize_original_color_hist
        (Hist.mk (some [("1_2_3", JVal.num 5), ("4_5_6", JVal.num 9), ("7_8_9", JVal.num 1)])
          none none none) 5).dominant = some ("4_5_6", 9)) := by
  refine ⟨rankedColors_sorted _, rankedColors_perm _, ?_, ?_, by decide, by decide, by decide⟩
  · intro i hi
    simp only [summarize_original_color_hist]
    by_cases hlen : i < ((rankedColors (h.distribution.getD [])).take 5).length
    · rw [List.getElem?_append_left (by simpa using hlen)]
      rw [List.getElem?_map]
      rw [List.length_take] at hlen
      rw [List.getElem?_take, if_pos (lt_of_lt_of_le hlen (min_le_left _ _))]
      rcases hx : (rankedColors (h.distribution.getD []))[i]? with _ | x
      · rw [List.getElem?_eq_none_iff] at hx
        omega
      · rfl
    · rw [List.getElem?_append_right (by simpa using Nat.le_of_not_lt hlen)]
      rw [List.length_take] at hlen
      have hrlen : (rankedColors (h.distribution.getD [])).length ≤ i := by omega
      rw [List.getElem?_replicate, List.length_map, List.length_take]
      rw [if_pos (by omega)]
      rw [List.getElem?_eq_none hrlen]
  · simp only [summarize_original_color_hist]
    rw [List.head?_eq_getElem?, List.getElem?_take, if_pos (by omega)]

/-- Witness: dominant-equals-rank-1 instantiated on a one-color histogram. -/
theorem c8_color_ranking_witness :
    (summarize_original_color_hist (Hist.mk (some [("9_9_9", JVal.num 2)]) none none none) 5).dominant
      = (rankedColors [("9_9_9", JVal.num 2)])[0]? :=
  (c8_color_ranking (Hist.mk (some [("9_9_9", JVal.num 2)]) none none none)).2.2.2.1

set_option maxRecDepth 4000 in
/-- C1 (code bug): the `CreateCreature` branch of `event_to_row` omits the
six `event_data_new_rules_*` columns that every other branch carries: the
row built for a CreateCreature event has none of the six keys, while the
row of an Extinction event from the same stream carries all six
(explicitly nulled). -/
theorem c1_create_creature_missing_new_rules :
    (((event_to_row [("colony_instance_id", JVal.str "c"),
        ("event_data", JVal.obj [("CreateCreature", JVal.arr [])])]).map Prod.fst).contains
      "event_data_new_rules_health_cost_per_size_unit" = false) ∧
    (((event_to_row [("colony_instance_id", JVal.str "c"),
        ("event_data", JVal.obj [("CreateCreature", JVal.arr [])])]).map Prod.fst).contains
      "event_data_new_rules_eat_capacity_per_size_unit" = false) ∧
    (((event_to_row [("colony_instance_id", JVal.str "c"),
        ("event_data", JVal.obj [("CreateCreature", JVal.arr [])])]).map Prod.fst).contains
      "event_data_new_rules_health_cost_if_can_kill" = false) ∧
    (((event_to_row [("colony_instance_id", JVal.str "c"),
        ("event_data", JVal.obj [("CreateCreature", JVal.arr [])])]).map Prod.fst).contains
      "event_data_new_rules_health_cost_if_can_move" = false) ∧
    (((event_to_row [("colony_instance_id", JVal.str "c"),
        ("event_data", JVal.obj [("CreateCreature", JVal.arr [])])]).map Prod.fst).contains
      "event_data_new_rules_mutation_chance" = false) ∧
    (((event_to_row [("colony_instance_id", JVal.str "c"),
        ("event_data", JVal.obj [("CreateCreature", JVal.arr [])])]).map Prod.fst).contains
      "event_data_new_rules_random_death_chance" = false) ∧
    (((event_to_row [("colony_instance_id", JVal.str "c"),
        ("event_data", JVal.obj [("Extinction", JVal.null)])]).map Prod.fst).contains
      "event_data_new_rules_mutation_chance" = true) := by
  refine ⟨by decide, by decide, by decide, by decide, by decide, by decide, by decide⟩

/-! Colony-id mismatch handling in the processing drivers. -/

theorem runRows_error_of_mismatch (cid : String) (toRow : List (String × JVal) → Row) :
    ∀ objs : List (String × List (String × JVal)),
      (∃ x ∈ objs, colonyMismatch (toRow x.2) cid = true) →
      ∃ e, runRows cid toRow objs = Except.error e := by
  intro objs
  induction objs with
  | nil => rintro ⟨x, hx, _⟩; cases hx
  | cons o rest ih =>
    rintro ⟨x, hx, hmis⟩
    obtain ⟨key, ob⟩ := o
    by_cases hm : colonyMismatch (toRow ob) cid = true
    · refine ⟨mismatchMsg key (toRow ob) cid, ?_⟩
      simp only [runRows, if_pos hm]
    · rcases List.mem_cons.mp hx with rfl | hx'
      · exact absurd hmis hm
      · obtain ⟨e, he⟩ := ih ⟨x, hx', hmis⟩
        refine ⟨e, ?_⟩
        simp only [runRows, if_neg hm, he]

theorem runRows_ok_of_no_mismatch (cid : String) (toRow : List (String × JVal) → Row) :
    ∀ objs : List (String × List (String × JVal)),
      (∀ x ∈ objs, colonyMismatch (toRow x.2) cid = false) →
      ∃ rows, runRows cid toRow objs = Except.ok rows ∧ rows.length = objs.length := by
  intro objs
  induction objs with
  | nil => intro _; exact ⟨[], rfl, rfl⟩
  | cons o rest ih =>
    intro hall
    obtain ⟨key, ob⟩ := o
    have hm : colonyMismatch (toRow ob) cid = false := hall (key, ob) (List.mem_cons_self _ _)
    obtain ⟨rows, hok, hlen⟩ := ih fun x hx => hall x (List.mem_cons_of_mem _ hx)
    refine ⟨toRow ob :: rows, ?_, by simpa using hlen⟩
    simp only [runRows, hm, Bool.false_eq_true, if_false, hok]

theorem processEventsPhase_error (cid : String) (statsOut : Option (List Row))
    (eventObjs : List (String × List (String × JVal)))
    (hex : ∃ x ∈ eventObjs, colonyMismatch (event_to_row x.2) cid = true) :
    (processEventsPhase cid statsOut eventObjs).statsOut = statsOut ∧
    (processEventsPhase cid statsOut eventObjs).eventsOut = none ∧
    (processEventsPhase cid statsOut eventObjs).error.isSome = true := by
  have hne : eventObjs.isEmpty = false := by
    rcases hex with ⟨x, hx, _⟩
    cases eventObjs
    · cases hx
    · rfl
  obtain ⟨e, he⟩ := runRows_error_of_mismatch cid event_to_row eventObjs hex
  simp [processEventsPhase, hne, he]

/-- C2 (amended): a colony-id mismatch raises the fatal error and aborts the
loop in progress, so no row of the mismatching or any later object survives
and the table being built when the mismatch occurs is never written.  A
mismatch in the stats phase of `ingest_bi.process_colony` additionally
prevents the events table entirely; a mismatch in the events phase leaves
the stats Parquet already written in the earlier phase in place (see the
counterexample).  The single-table `process_colony` of
`stats_shots_to_parquet.py` writes nothing on a mismatch. -/
theorem c2_mismatch_aborts (cid : String)
    (statsObjs eventObjs analysisObjs : List (String × List (String × JVal))) :
    ((∃ x ∈ statsObjs, colonyMismatch (snapshot_to_row_ingest x.2) cid = true) →
      ∃ e, process_colony_ingest cid statsObjs eventObjs
        = { statsOut := none, eventsOut := none, error := some e }) ∧
    ((∀ x ∈ statsObjs, colonyMismatch (snapshot_to_row_ingest x.2) cid = false) →
     (∃ x ∈ eventObjs, colonyMismatch (event_to_row x.2) cid = true) →
      (process_colony_ingest cid statsObjs eventObjs).eventsOut = none ∧
      (process_colony_ingest cid statsObjs eventObjs).error.isSome = true) ∧
    ((∃ x ∈ analysisObjs, colonyMismatch (snapshot_to_row_analysis x.2) cid = true) →
      ∃ e, process_colony_analysis cid analysisObjs = (none, some e)) := by
  refine ⟨?_, ?_, ?_⟩
  · intro hex
    have hne : statsObjs.isEmpty = false := by
      rcases hex with ⟨x, hx, _⟩
      cases statsObjs
      · cases hx
      · rfl
    obtain ⟨e, he⟩ := runRows_error_of_mismatch cid snapshot_to_row_ingest statsObjs hex
    refine ⟨e, ?_⟩
    simp [process_colony_ingest, hne, he]
  · intro hall hex
    rcases hobjs : statsObjs with _ | ⟨o, rest⟩
    · have h := processEventsPhase_error cid none eventObjs hex
      simp only [process_colony_ingest, List.isEmpty_nil, if_true]
      exact ⟨h.2.1, h.2.2⟩
    · rw [hobjs] at hall
      obtain ⟨rows, hok, hlen⟩ := runRows_ok_of_no_mismatch cid snapshot_to_row_ingest _ hall
      have h := processEventsPhase_error cid
        (if rows.isEmpty then none else some rows) eventObjs hex
      simp only [process_colony_ingest, List.isEmpty_cons, Bool.false_eq_true, if_false, hok]
      exact ⟨h.2.1, h.2.2⟩
  · intro hex
    have hne : analysisObjs.isEmpty = false := by
      rcases hex with ⟨x, hx, _⟩
      cases analysisObjs
      · cases hx
      · rfl
    obtain ⟨e, he⟩ := runRows_error_of_mismatch cid snapshot_to_row_analysis analysisObjs hex
    refine ⟨e, ?_⟩
    simp [process_colony_analysis, hne, he]

/-- Witness: a lone analysis-pipeline object whose payload declares colony
d while living under colony c aborts with no Parquet written. -/
theorem c2_mismatch_aborts_witness :
    ∃ e, process_colony_analysis "c" [("k", [("colony_instance_id", JVal.str "d")])]
      = (none, some e) :=
  (c2_mismatch_aborts "c" [] [] [("k", [("colony_instance_id", JVal.str "d")])]).2.2
    ⟨("k", [("colony_instance_id", JVal.str "d")]), List.mem_singleton.mpr rfl, by decide⟩

/-- C2 (counterexample to the claim as stated): in `ingest_bi.py` the stats
Parquet is written before the events are processed, so an event-phase
colony-id mismatch raises the fatal error and yet a Parquet output for the
colony in progress has already been produced: here `statsOut` is written
while the run still errors. -/
theorem c2_counterexample :
    (process_colony_ingest "c" [("k1", [("colony_instance_id", JVal.str "c")])]
      [("k2", [("colony_instance_id", JVal.str "d")])]).statsOut.isSome = true ∧
    (process_colony_ingest "c" [("k1", [("colony_instance_id", JVal.str "c")])]
      [("k2", [("colony_instance_id", JVal.str "d")])]).error.isSome = true := by
  refine ⟨by decide, by decide⟩

/-- C9 (counterexample to the claim as stated): for an event whose
`event_data` is the empty mapping — which contains none of the five known
keys — `event_to_row` dispatches to the Unknown variant but stores a null
`event_data_value`, not the serialized payload text, because the Python
`json.dumps(event_data) if event_data else None` guard treats the empty
dict as falsy. -/
theorem c9_counterexample :
    pyGet (event_to_row [("event_data", JVal.obj [])]) "event_data_type" = JVal.str "Unknown" ∧
    pyGet (event_to_row [("event_data", JVal.obj [])]) "event_data_value" = JVal.null ∧
    JVal.null ≠ JVal.str (jsonDumps (JVal.obj [])) := by
  refine ⟨rfl, rfl, ?_⟩
  intro hcon
  exact JVal.noConfusion hcon

/-- C9 (amended): an event whose `event_data` payload is a mapping with
none of the five known keys gets `event_data_type = "Unknown"` and
`event_data_value` set to the raw payload serialized to text when the
mapping is non-empty, and to null when the mapping is empty. -/
theorem c9_unknown_payload (event fields : List (String × JVal))
    (hed : pyGet event "event_data" = JVal.obj fields)
    (h1 : hasKey fields "CreateCreature" = false)
    (h2 : hasKey fields "ChangeExtraFoodPerTick" = false)
    (h3 : hasKey fields "Extinction" = false)
    (h4 : hasKey fields "NewTopography" = false)
    (h5 : hasKey fields "ChangeColonyRules" = false) :
    pyGet (event_to_row event) "event_data_type" = JVal.str "Unknown" ∧
    pyGet (event_to_row event) "event_data_value" =
      (if fields.isEmpty then JVal.null else JVal.str (jsonDumps (JVal.obj fields))) := by
  constructor <;>
  · simp only [event_to_row, hed, eventDataCells, h1, h2, h3, h4, h5,
      Bool.false_eq_true, if_false]
    simp [pyGet, List.lookup, regionNullCells, traitsNullCells, newRulesNullCells]

/-- Witness: a one-field unrecognized payload is serialized to its JSON
text in `event_data_value`. -/
theorem c9_unknown_payload_witness :
    pyGet (event_to_row [("event_data", JVal.obj [("Foo", JVal.num 1)])]) "event_data_type"
      = JVal.str "Unknown" ∧
    pyGet (event_to_row [("event_data", JVal.obj [("Foo", JVal.num 1)])]) "event_data_value"
      = (if ([("Foo", JVal.num 1)] : List (String × JVal)).isEmpty then JVal.null
         else JVal.str (jsonDumps (JVal.obj [("Foo", JVal.num 1)]))) :=
  c9_unknown_payload [("event_data", JVal.obj [("Foo", JVal.num 1)])] [("Foo", JVal.num 1)]
    rfl (by decide) (by decide) (by decide) (by decide) (by decide)
